import Mathlib

/-!
Shallow embedding of `src/app.py` (Flask chat application): the SQLite-backed
message store helpers (`save_msg`, `update_last_bot_message`, `load_msgs`),
the upstream delta-stream consumer `stream_claude_sonnet` with its code-fence
parity counter and continuation overlap trim, and the `/chat` route's action
dispatch and continuation-prompt construction (for the default model
`claude-sonnet-3.7`, whose delivery path is the streaming one).

Strings are modelled by Lean `String` (a wrapper around `List Char`); the
Python-specific primitives used by the source (`str.count`, `str.split`,
`str.lstrip`, `str.rstrip`, `str.strip`, `str.startswith`, `str.endswith`,
`re.sub` for the `<think>...</think>` annotation) are defined below,
character-for-character faithful to Python semantics on the code's inputs.
-/

/-- Python whitespace predicate used by `str.strip` and friends
(space, tab, LF, VT, FF, CR). -/
def isWs (c : Char) : Bool := c.toNat == 32 || (9 ≤ c.toNat && c.toNat ≤ 13)

/-- `str.lstrip()` on a character list. -/
def trimLeftWs : List Char → List Char
  | [] => []
  | c :: cs => if isWs c then trimLeftWs cs else c :: cs

/-- `str.rstrip()` on a character list. -/
def rstripChars (s : List Char) : List Char := (trimLeftWs s.reverse).reverse

/-- `str.strip()` on a character list. -/
def trimWs (s : List Char) : List Char := rstripChars (trimLeftWs s)

def isBacktick (c : Char) : Bool := c.toNat == 96

/-- Python `s.count('```')`: number of non-overlapping occurrences of a
triple backtick, scanning left to right. -/
def countTripleChars : List Char → Nat
  | c1 :: c2 :: c3 :: rest =>
    if isBacktick c1 && isBacktick c2 && isBacktick c3 then countTripleChars rest + 1
    else countTripleChars (c2 :: c3 :: rest)
  | _ => 0

def countTriple (s : String) : Nat := countTripleChars s.data

/-- Case-insensitive match of a (lowercase) tag at the head of a string;
returns the remainder after the tag. -/
def matchTag : List Char → List Char → Option (List Char)
  | [], s => some s
  | _ :: _, [] => none
  | t :: ts, c :: cs => if c.toLower == t then matchTag ts cs else none

def openTagChars : List Char := "<think>".data

def closeTagChars : List Char := "</think>".data

/-- Scan forward for the first (case-insensitive) occurrence of `</think>`;
return the remainder after it. -/
def dropUntilClose : List Char → Option (List Char)
  | [] => none
  | c :: cs =>
    match matchTag closeTagChars (c :: cs) with
    | some rest => some rest
    | none => dropUntilClose cs

/-- `re.sub(r'<think>[\s\S]*?</think>', '', s, flags=re.IGNORECASE)`:
remove every non-greedy, leftmost-first `<think>...</think>` span.
Driven by a fuel argument bounded by the input length; every recursive call
consumes at least one character, so fuel `s.length` never runs out. -/
def stripThinkFuel : Nat → List Char → List Char
  | 0, s => s
  | _ + 1, [] => []
  | fuel + 1, c :: cs =>
    match matchTag openTagChars (c :: cs) with
    | some rest =>
      match dropUntilClose rest with
      | some later => stripThinkFuel fuel later
      | none => c :: stripThinkFuel fuel cs
    | none => c :: stripThinkFuel fuel cs

def stripThink (s : List Char) : List Char := stripThinkFuel s.length s

/-- The cleaning applied by `load_msgs` to each stored message:
strip `<think>` spans, then `.strip()`. -/
def cleanMessage (m : String) : String := String.mk (trimWs (stripThink m.data))

/-- One row of the `chats` table (for a fixed session), in insertion order. -/
structure StoredMsg where
  role : String
  message : String
  deriving DecidableEq

/-- One entry of the history handed to the upstream adapter. -/
structure ChatMsg where
  role : String
  content : String
  deriving DecidableEq

/-- `save_msg`: append one row to the session's message log. -/
def save_msg (store : List StoredMsg) (role msg : String) : List StoredMsg :=
  store ++ [⟨role, msg⟩]

/-- The per-row transformation of `load_msgs`: map role `bot` to `assistant`,
strip thinking annotations and surrounding whitespace, and drop the row if
the cleaned text is empty. -/
def loadEntry (m : StoredMsg) : Option ChatMsg :=
  let role := if m.role == "bot" then "assistant" else m.role
  let clean := cleanMessage m.message
  if clean == "" then none else some ⟨role, clean⟩

/-- `load_msgs`: load the ordered history of a session. -/
def load_msgs (store : List StoredMsg) : List ChatMsg :=
  store.filterMap loadEntry

/-- Helper for `update_last_bot_message`, operating on the reversed log:
find the most recent `bot` row and append the chunk to it. -/
def updateLastBotRev (chunk : String) (isOpen : Bool) : List StoredMsg → Option (List StoredMsg × String)
  | [] => none
  | m :: rest =>
    if m.role == "bot" then
      let upd := if isOpen then m.message ++ chunk else m.message ++ chunk
      some (⟨m.role, upd⟩ :: rest, upd)
    else
      match updateLastBotRev chunk isOpen rest with
      | some (rest2, upd) => some (m :: rest2, upd)
      | none => none

/-- `update_last_bot_message`: append `chunk` to the most recent `bot` row,
or insert it as a brand-new `bot` row when none exists; returns the new log
and the updated message (the function's return value). -/
def update_last_bot_message (store : List StoredMsg) (chunk : String) (isOpen : Bool) :
    List StoredMsg × String :=
  match updateLastBotRev chunk isOpen store.reverse with
  | some (rev2, upd) => (rev2.reverse, upd)
  | none => (save_msg store "bot" chunk, chunk)

/-- Python `s.split('\n')` (never empty; `""` splits to `[""]`). -/
def splitNlChars : List Char → List Char → List (List Char)
  | acc, [] => [acc.reverse]
  | acc, c :: cs =>
    if c.toNat == 10 then acc.reverse :: splitNlChars [] cs else splitNlChars (c :: acc) cs

def splitNl (s : String) : List String := (splitNlChars [] s.data).map String.mk

def rstripStr (s : String) : String := String.mk (rstripChars s.data)

/-- `content.split('\n')[-1].rstrip()` (lines 286 and 317 of the source). -/
def lastLineOf (s : String) : String := rstripStr ((splitNl s).getLastD "")

/-- Python `'\n'.join(l)`. -/
def joinNl : List String → String
  | [] => ""
  | [s] => s
  | s :: rest => s ++ "\n" ++ joinNl rest

/-- `'\n'.join(content.split('\n')[-3:])` (line 285 of the source). -/
def lastLinesOf (s : String) : String :=
  let ls := splitNl s
  joinNl (ls.drop (ls.length - 3))

/-- The continuation prompt built when the prior assistant message left a
code fence open (source lines 289-294). -/
def openContinueContent (lastLine : String) : String :=
  "Please continue the code precisely from the last character of the incomplete line: '" ++
  lastLine ++
  "'.\nStart your response with the exact characters needed to complete the line, without repeating any part of '" ++
  lastLine ++
  "', and without adding any extra spaces, newlines, ``` fences, or introductory phrases. For example, if the last line was 'parent_i', start with 'd' to complete 'parent_id' seamlessly."

/-- The continuation prompt built when the prior assistant message left all
code fences closed (source lines 296-300). -/
def closedContinueContent (lastLines : String) : String :=
  "Please continue the response precisely from where you left off. The last part was:\n" ++
  lastLines ++
  "\nStart with the next sentence or content without repetition, extra spaces, newlines, or introductory phrases."

/-- The continuation prompt for a prior assistant message `lastContent`
(source lines 284-300): fence parity over the whole message selects the
open-fence or closed-fence template. -/
def continueContent (lastContent : String) : String :=
  if countTriple lastContent % 2 == 1 then openContinueContent (lastLineOf lastContent)
  else closedContinueContent (lastLinesOf lastContent)

/-- State threaded through the delta loop of `stream_claude_sonnet`:
the running triple-backtick counter and the accumulated output buffer. -/
structure StreamState where
  count : Nat
  buffer : String
  deriving DecidableEq

/-- Python `s.endswith(c)` for a single character `c` (false on `""`). -/
def endsWithChar (s : String) (c : Char) : Bool :=
  match s.data.getLast? with
  | some x => x == c
  | none => false

/-- Does `s` start with `p`? (Python `s.startswith(p)`; first argument is
the string, second the candidate head.) -/
def leadMatch : List Char → List Char → Bool
  | _, [] => true
  | [], _ :: _ => false
  | c :: cs, p :: ps => c == p && leadMatch cs ps

/-- The overlap-trim applied to a delta while the buffer is still empty
(source lines 145-149): lstrip, then drop the full `last_partial_line`
overlap, else drop one character when the last character of
`last_partial_line` equals the delta's first character. Indexing `delta[0]`
on an empty post-lstrip delta raises `IndexError`, modelled as the error
case. -/
def trimDelta (lpl : String) (delta : String) : Except String String :=
  let d := String.mk (trimLeftWs delta.data)
  if leadMatch d.data lpl.data then Except.ok (String.mk (d.data.drop lpl.data.length))
  else
    match d.data with
    | [] => Except.error "string index out of range"
    | c :: _ => if endsWithChar lpl c then Except.ok (String.mk (d.data.drop 1)) else Except.ok d

/-- Python truthiness of the `last_partial_line` argument
(`None` and `""` are falsy). -/
def optTruthy : Option String → Bool
  | some s => !(s == "")
  | none => false

/-- Processing of one `text-delta` event (source lines 139-151): empty
deltas are skipped; otherwise the fence counter is advanced on the raw
delta, the overlap trim is applied while the continuation buffer is empty,
and the (possibly trimmed) delta is emitted with the fence-open flag. -/
def procDelta (isCont : Bool) (lpl : Option String) (st : StreamState) (delta : String) :
    Except String (StreamState × Option (String × Bool)) :=
  if delta == "" then Except.ok (st, none)
  else
    let cnt := st.count + countTriple delta
    let opn := cnt % 2 == 1
    if isCont && optTruthy lpl && (st.buffer == "") then
      match trimDelta (lpl.getD "") delta with
      | Except.error e => Except.error e
      | Except.ok t => Except.ok (⟨cnt, st.buffer ++ t⟩, some (t, opn))
    else Except.ok (⟨cnt, st.buffer ++ delta⟩, some (delta, opn))

/-- Run the delta loop over a list of parsed `text-delta` payloads,
returning the emitted `(text, codeBlockOpen)` pairs and the exception, if
any, that aborted the loop. -/
def runDeltas (isCont : Bool) (lpl : Option String) : StreamState → List String → List (String × Bool) × Option String
  | _, [] => ([], none)
  | st, d :: ds =>
    match procDelta isCont lpl st d with
    | Except.error e => ([], some e)
    | Except.ok (st', none) => runDeltas isCont lpl st' ds
    | Except.ok (st', some out) =>
      let r := runDeltas isCont lpl st' ds
      (out :: r.1, r.2)

/-- The synthetic increment yielded by the `except` handler
(source line 155). -/
def claudeError (e : String) : String := "Claude API Error: " ++ e

/-- The observable behaviour of the upstream transport for one request:
either the full list of parsed `text-delta` payloads, or the payloads
delivered before a transport failure together with the exception text
(connection refused / timeout / `raise_for_status`). -/
inductive Upstream where
  | ok (deltas : List String)
  | fail (delivered : List String) (err : String)
  deriving DecidableEq

/-- `stream_claude_sonnet` (source lines 112-155): the whole body runs in a
`try` block; any exception — from the transport or from the overlap trim —
ends the generator with the single synthetic `Claude API Error` increment.
`history` and `isReasoning` shape the upstream request payload only. -/
def stream_claude_sonnet (history : List ChatMsg) (isReasoning : Bool) (isCont : Bool)
    (lpl : Option String) (up : Upstream) : List (String × Bool) :=
  match up with
  | Upstream.ok ds =>
    match runDeltas isCont lpl ⟨0, ""⟩ ds with
    | (out, none) => out
    | (out, some e) => out ++ [(claudeError e, false)]
  | Upstream.fail got e =>
    match runDeltas isCont lpl ⟨0, ""⟩ got with
    | (out, none) => out ++ [(claudeError e, false)]
    | (out, some e2) => out ++ [(claudeError e2, false)]

/-- The `/chat` request fields the claude path reads (source lines 269-278). -/
structure ChatRequest where
  text : String
  fileInfo : Option String
  action : String
  isReasoning : Bool
  deriving DecidableEq

/-- The HTTP response of the `/chat` route on the claude path: either a
JSON error with its status code, or the streamed response whose body is the
sequence of increment texts. -/
inductive ChatResponse where
  | jsonErr (code : Nat) (msg : String)
  | stream (chunks : List String)
  deriving DecidableEq

/-- Result of one `/chat` call: the response, the session's message log
after the call, and whether the upstream provider was contacted. -/
structure ChatOutcome where
  response : ChatResponse
  store : List StoredMsg
  upstreamCalled : Bool
  deriving DecidableEq

/-- Result of the action-dispatch prologue of `/chat` (source lines
275-311), shared by every model: an early JSON error, or the prepared
history plus the log as mutated so far. -/
inductive ActionResult where
  | err (code : Nat) (msg : String)
  | ok (history : List ChatMsg) (store : List StoredMsg)
  deriving DecidableEq

/-- The user message persisted for a `chat` action (source line 278). -/
def userSaveText (fileInfo : Option String) (text : String) : String :=
  match fileInfo with
  | some n => "[File: " ++ n ++ "]\n" ++ text
  | none => text

/-- The Python condition `chat_history and chat_history[-1]['role'] == 'assistant'`. -/
def lastIsAssistant (hist : List ChatMsg) : Bool :=
  match hist.getLast? with
  | some m => m.role == "assistant"
  | none => false

/-- Action dispatch of `/chat` (source lines 275-311): `chat` saves the user
message and loads the history; `continue` requires the loaded history to end
with an assistant message and appends the continuation prompt; anything else
is a 400. -/
def chatPrepare (store : List StoredMsg) (req : ChatRequest) : ActionResult :=
  if req.action == "chat" then
    let store1 := save_msg store "user" (userSaveText req.fileInfo req.text)
    ActionResult.ok (load_msgs store1) store1
  else if req.action == "continue" then
    let hist := load_msgs store
    match hist.getLast? with
    | some m =>
      if m.role == "assistant" then
        ActionResult.ok (hist ++ [⟨"user", continueContent m.content⟩]) store
      else ActionResult.err 400 "No previous bot message to continue."
    | none => ActionResult.err 400 "No previous bot message to continue."
  else ActionResult.err 400 "Invalid action."

/-- The placeholder the route persists after streaming (source line 350). -/
def savedPlaceholder : String := "Full response accumulated client-side"

/-- The `/chat` route for model `claude-sonnet-3.7` (source lines 265-351):
after action dispatch, `last_line` is recomputed from the last entry of the
prepared history — which for a continuation is the appended continuation
prompt, not the prior assistant message (source line 317) — the upstream
stream is drained into the response body, and the placeholder bot message is
saved. -/
def chatClaude (store : List StoredMsg) (req : ChatRequest) (up : Upstream) : ChatOutcome :=
  match chatPrepare store req with
  | ActionResult.err c m => ⟨ChatResponse.jsonErr c m, store, false⟩
  | ActionResult.ok hist store1 =>
    let lpl : Option String :=
      if req.action == "continue" then (hist.getLast?).map (fun m => lastLineOf m.content)
      else none
    let out := stream_claude_sonnet hist req.isReasoning (req.action == "continue") lpl up
    ⟨ChatResponse.stream (out.map Prod.fst), save_msg store1 "bot" savedPlaceholder, true⟩

/-- Specification-side parity trace: starting from marker count `acc`, the
expected fence-open flag after each successive increment, namely the parity
of the running sum of per-increment triple-backtick counts. -/
def parityList (acc : Nat) : List String → List Bool
  | [] => []
  | d :: ds => ((acc + countTriple d) % 2 == 1) :: parityList (acc + countTriple d) ds

/-- `needle` occurs contiguously inside `hay`. -/
def strIncl (hay needle : String) : Prop :=
  ∃ p s, hay.data = p ++ needle.data ++ s


/-! ## Helper lemmas -/

theorem str_append_ne_empty_left (a b : String) (h : a ≠ "") : a ++ b ≠ "" := by
  intro hc
  apply h
  apply String.ext
  have hd := congrArg String.data hc
  rw [String.data_append] at hd
  rcases List.append_eq_nil.mp hd with ⟨ha, _⟩
  simpa using ha

theorem str_append_ne_empty_right (a b : String) (h : b ≠ "") : a ++ b ≠ "" := by
  intro hc
  apply h
  apply String.ext
  have hd := congrArg String.data hc
  rw [String.data_append] at hd
  rcases List.append_eq_nil.mp hd with ⟨_, hb⟩
  simpa using hb

theorem updateLastBotRev_flag (chunk : String) (b : Bool) :
    ∀ l, updateLastBotRev chunk b l = updateLastBotRev chunk true l := by
  intro l
  induction l with
  | nil => rfl
  | cons m rest ih =>
    simp only [updateLastBotRev, ih]
    cases b <;> rfl

theorem updateLastBotRev_none (chunk : String) (b : Bool) :
    ∀ l, (∀ m ∈ l, m.role ≠ "bot") → updateLastBotRev chunk b l = none := by
  intro l
  induction l with
  | nil => intro _; rfl
  | cons m rest ih =>
    intro h
    have hm : (m.role == "bot") = false := beq_eq_false_iff_ne.mpr (h m (by simp))
    simp [updateLastBotRev, hm, ih fun x hx => h x (by simp [hx])]

/-! ## C10 -/

/-- C10: `update_last_bot_message` never fails when the session has no prior
bot row — it inserts the chunk as a brand-new bot message and returns it —
and its result (stored log and return value) does not depend on the
`is_code_block_open` argument. -/
theorem update_last_bot_no_prior_and_flag_independent
    (store : List StoredMsg) (chunk : String) (b : Bool) :
    update_last_bot_message store chunk b = update_last_bot_message store chunk true ∧
    ((∀ m ∈ store, m.role ≠ "bot") →
      update_last_bot_message store chunk b = (store ++ [⟨"bot", chunk⟩], chunk)) := by
  constructor
  · simp [update_last_bot_message, updateLastBotRev_flag chunk b]
  · intro h
    have hrev : updateLastBotRev chunk b store.reverse = none :=
      updateLastBotRev_none chunk b _ (fun m hm => h m (List.mem_reverse.mp hm))
    simp [update_last_bot_message, hrev, save_msg]

/-- C10 witness: on a log holding one user message, the update inserts the
chunk as a new bot row and returns it. -/
theorem update_last_bot_no_prior_witness :
    update_last_bot_message [⟨"user", "hi"⟩] "x" false
      = ([⟨"user", "hi"⟩] ++ [⟨"bot", "x"⟩], "x") :=
  (update_last_bot_no_prior_and_flag_independent [⟨"user", "hi"⟩] "x" false).2 (by decide)

/-! ## C8 -/

/-- C8 (amended): `load_msgs` returns, in append order, exactly those
appended entries whose content is non-empty after stripping
thinking-annotations and surrounding whitespace — so at most N entries after
N appends, with equality exactly when no entry cleans to empty. -/
theorem load_msgs_order_amended (store : List StoredMsg) (e : StoredMsg) :
    load_msgs (store ++ [e]) = load_msgs store ++ (loadEntry e).toList ∧
    (load_msgs store).length ≤ store.length := by
  refine ⟨?_, List.length_filterMap_le _ _⟩
  rw [load_msgs, load_msgs, List.filterMap_append]
  cases he : loadEntry e <;> simp [he]

/-- C8 counterexample: one append whose content is a pure thinking
annotation yields zero loaded entries, not one. -/
theorem load_msgs_count_counterexample :
    (load_msgs [⟨"bot", "<think>x</think>"⟩]).length ≠
      ([⟨"bot", "<think>x</think>"⟩] : List StoredMsg).length := by
  decide

/-! ## C2 -/

theorem runDeltas_noCont_flags (lpl : Option String) :
    ∀ (ds : List String) (st : StreamState),
      (runDeltas false lpl st ds).1.map Prod.snd
          = parityList st.count (ds.filter (fun d => !(d == ""))) ∧
      (runDeltas false lpl st ds).2 = none := by
  intro ds
  induction ds with
  | nil => intro st; exact ⟨rfl, rfl⟩
  | cons d rest ih =>
    intro st
    by_cases hd : d = ""
    · subst hd
      simpa [runDeltas, procDelta, parityList] using ih st
    · have hd' : (d == "") = false := beq_eq_false_iff_ne.mpr hd
      have hih := ih ⟨st.count + countTriple d, st.buffer ++ d⟩
      simp [runDeltas, procDelta, hd', parityList, hih.1, hih.2]

/-- C2 (amended): the fence-open flag reported with each increment is the
parity of the running **sum of per-increment** triple-backtick counts over
the increments consumed so far (odd = open, even = closed); this equals the
marker count of the concatenated text only when no marker straddles an
increment boundary. Stated for a fresh (non-continuation) stream, where the
consumed increments are exactly the emitted ones. -/
theorem code_fence_parity_amended (hist : List ChatMsg) (r : Bool) (lpl : Option String)
    (ds : List String) :
    (stream_claude_sonnet hist r false lpl (Upstream.ok ds)).map Prod.snd
      = parityList 0 (ds.filter (fun d => !(d == ""))) := by
  obtain ⟨h1, h2⟩ := runDeltas_noCont_flags lpl ds ⟨0, ""⟩
  rcases hr : runDeltas false lpl ⟨0, ""⟩ ds with ⟨out, err⟩
  rw [hr] at h1 h2
  simp only at h1 h2
  subst h2
  simpa [stream_claude_sonnet, hr] using h1

/-- C2 counterexample: a triple-backtick marker split across the increments
`"`" ++ "``"` is not counted — after the second increment the consumed text
contains an odd number of markers, yet the flag reports closed. -/
theorem code_fence_parity_counterexample :
    stream_claude_sonnet [] false false none (Upstream.ok ["`", "``"])
        = [("`", false), ("``", false)] ∧
    countTriple ("`" ++ "``") % 2 = 1 := by
  exact ⟨by decide, by decide⟩

/-! ## C5 -/

/-- C5: every transport failure, and every exception raised mid-stream,
terminates the increment sequence with exactly one final synthetic
`Claude API Error` increment appended to the increments already produced. -/
theorem transport_failure_single_terminal (hist : List ChatMsg) (r isCont : Bool)
    (lpl : Option String) (got ds : List String) (e e2 : String)
    (out out2 : List (String × Bool))
    (hfail : runDeltas isCont lpl ⟨0, ""⟩ got = (out, none)) :
    stream_claude_sonnet hist r isCont lpl (Upstream.fail got e)
        = out ++ [(claudeError e, false)] ∧
    (runDeltas isCont lpl ⟨0, ""⟩ ds = (out2, some e2) →
      stream_claude_sonnet hist r isCont lpl (Upstream.ok ds)
        = out2 ++ [(claudeError e2, false)]) := by
  constructor
  · simp [stream_claude_sonnet, hfail]
  · intro h
    simp [stream_claude_sonnet, h]

/-- C5 witness: a connection failure after one delivered increment yields
that increment followed by the single synthetic error increment. -/
theorem transport_failure_single_terminal_witness :
    stream_claude_sonnet [] false false none (Upstream.fail ["a"] "timeout")
      = [("a", false)] ++ [(claudeError "timeout", false)] :=
  (transport_failure_single_terminal [] false false none ["a"] [] "timeout" ""
    [("a", false)] [] (by decide)).1

/-! ## C9 -/

theorem trimLeftWs_all_ws (l : List Char) (h : ∀ c ∈ l, isWs c = true) :
    trimLeftWs l = [] := by
  induction l with
  | nil => rfl
  | cons c cs ih =>
    simp [trimLeftWs, h c (by simp), ih fun x hx => h x (by simp [hx])]

/-- C9: on a continuation stream with a non-empty trailing partial line, a
first delta that is non-empty but pure whitespace is stripped to the empty
string, whose first character is then indexed: the `IndexError` aborts the
stream, which ends with only the synthetic error increment — the remaining
upstream increments are never delivered. -/
theorem whitespace_first_delta_crashes (hist : List ChatMsg) (r : Bool) (lpl d : String)
    (rest : List String) (hlpl : lpl ≠ "") (hd : d ≠ "")
    (hws : ∀ c ∈ d.data, isWs c = true) :
    stream_claude_sonnet hist r true (some lpl) (Upstream.ok (d :: rest))
      = [(claudeError "string index out of range", false)] := by
  have hld : lpl.data ≠ [] := by
    intro h0
    exact hlpl (String.ext (by simpa using h0))
  have htrim : trimDelta lpl d = Except.error "string index out of range" := by
    unfold trimDelta
    rw [trimLeftWs_all_ws d.data hws]
    rcases hl : lpl.data with _ | ⟨c, cs⟩
    · exact absurd hl hld
    · simp [leadMatch]
  have hd' : (d == "") = false := beq_eq_false_iff_ne.mpr hd
  have hlpl' : (lpl == "") = false := beq_eq_false_iff_ne.mpr hlpl
  simp [stream_claude_sonnet, runDeltas, procDelta, hd', optTruthy, hlpl', htrim]

/-- C9 witness: trailing partial line `"parent_i"`, first delta `"\n "`,
one further increment pending: the stream is the lone error increment. -/
theorem whitespace_first_delta_crashes_witness :
    stream_claude_sonnet [] false true (some "parent_i") (Upstream.ok ["\n ", "rest"])
      = [(claudeError "string index out of range", false)] :=
  whitespace_first_delta_crashes [] false "parent_i" "\n " ["rest"]
    (by decide) (by decide) (by decide)

/-! ## C1 -/

theorem runDeltas_buffer_nonempty (isCont : Bool) (lpl : Option String) :
    ∀ (ds : List String) (st : StreamState), st.buffer ≠ "" →
      (runDeltas isCont lpl st ds).1.map Prod.fst = ds.filter (fun d => !(d == "")) ∧
      (runDeltas isCont lpl st ds).2 = none := by
  intro ds
  induction ds with
  | nil => intro st _; exact ⟨rfl, rfl⟩
  | cons d rest ih =>
    intro st hb
    by_cases hd : d = ""
    · subst hd
      simpa [runDeltas, procDelta] using ih st hb
    · have hd' : (d == "") = false := beq_eq_false_iff_ne.mpr hd
      have hb' : (st.buffer == "") = false := beq_eq_false_iff_ne.mpr hb
      have hih := ih ⟨st.count + countTriple d, st.buffer ++ d⟩
        (str_append_ne_empty_left _ _ hb)
      simp [runDeltas, procDelta, hd', hb', hih.1, hih.2]

/-- C1 (amended): the overlap-trim correction is applied to each increment
delivered while the accumulated stream output is still empty; hence when the
first non-empty increment's corrected text is non-empty — the case the spec
describes — the correction fires exactly once and every later increment
passes through unmodified. Concretely, with trailing partial line
`"parent_i"` and raw increment `"parent_id is the key"` the emitted
increment is `"d is the key"`. -/
theorem overlap_trim_corrected :
    (∀ (hist : List ChatMsg) (r : Bool) (lpl d t : String) (rest : List String),
      lpl ≠ "" → d ≠ "" → trimDelta lpl d = Except.ok t → t ≠ "" →
      ∃ out, stream_claude_sonnet hist r true (some lpl) (Upstream.ok (d :: rest))
          = (t, (countTriple d % 2 == 1)) :: out ∧
        out.map Prod.fst = rest.filter (fun x => !(x == ""))) ∧
    stream_claude_sonnet [] false true (some "parent_i")
        (Upstream.ok ["parent_id is the key"])
      = [("d is the key", false)] := by
  constructor
  · intro hist r lpl d t rest hlpl hd htrim ht
    have hd' : (d == "") = false := beq_eq_false_iff_ne.mpr hd
    have hlpl' : (lpl == "") = false := beq_eq_false_iff_ne.mpr hlpl
    obtain ⟨hmap, herr⟩ := runDeltas_buffer_nonempty true (some lpl) rest
      ⟨countTriple d, t⟩ ht
    rcases hr : runDeltas true (some lpl) ⟨countTriple d, t⟩ rest with ⟨out, err⟩
    rw [hr] at hmap herr
    simp only at hmap herr
    subst herr
    refine ⟨out, ?_, hmap⟩
    simp [stream_claude_sonnet, runDeltas, procDelta, hd', optTruthy, hlpl', htrim, hr]
  · decide

/-- C1 counterexample: when the first increment is exactly the trailing
partial line, trimming leaves the buffer empty and the correction fires
again on the second increment, mutating it (`"bcd"` is emitted as `"cd"`)
instead of passing it through unmodified. -/
theorem overlap_trim_counterexample :
    stream_claude_sonnet [] false true (some "ab") (Upstream.ok ["ab", "bcd"])
        = [("", false), ("cd", false)] ∧
    ("cd" : String) ≠ "bcd" := by
  exact ⟨by decide, by decide⟩

/-- C1 witness: the trimmed first increment `"d is the key"` is non-empty,
so the two pending increments (one empty, one not) pass through with only
the empty one skipped. -/
theorem overlap_trim_corrected_witness :
    ∃ out, stream_claude_sonnet [] true true (some "parent_i")
          (Upstream.ok ("parent_id is the key" :: ["", "next"]))
        = ("d is the key", (countTriple "parent_id is the key" % 2 == 1)) :: out ∧
      out.map Prod.fst = ["", "next"].filter (fun x => !(x == "")) :=
  overlap_trim_corrected.1 [] true "parent_i" "parent_id is the key" "d is the key"
    ["", "next"] (by decide) (by decide) (by rfl) (by decide)

/-! ## C3 -/

/-- C3: a `continue` request whose loaded (annotation-stripped) history is
empty or does not end with an assistant message is rejected with the 400
`"No previous bot message to continue."` error; the stored log is unchanged
and the upstream provider is never contacted (and nothing else — no task —
is produced). -/
theorem continue_requires_assistant (store : List StoredMsg) (req : ChatRequest)
    (up : Upstream) (ha : req.action = "continue")
    (h : lastIsAssistant (load_msgs store) = false) :
    chatClaude store req up
      = ⟨ChatResponse.jsonErr 400 "No previous bot message to continue.", store, false⟩ := by
  have h1 : (req.action == "chat") = false := by rw [ha]; rfl
  have h2 : (req.action == "continue") = true := by rw [ha]; rfl
  unfold chatClaude chatPrepare
  rw [h1, h2]
  cases hl : (load_msgs store).getLast? with
  | none => simp [hl]
  | some m =>
    have hm : (m.role == "assistant") = false := by
      unfold lastIsAssistant at h
      rwa [hl] at h
    simp [hl, hm]

/-- C3 witness: continuing a session whose only message is a user message
fails with the 400 error, leaving the log untouched. -/
theorem continue_requires_assistant_witness :
    chatClaude [⟨"user", "hi"⟩] ⟨"", none, "continue", true⟩ (Upstream.ok [])
      = ⟨ChatResponse.jsonErr 400 "No previous bot message to continue.",
          [⟨"user", "hi"⟩], false⟩ :=
  continue_requires_assistant [⟨"user", "hi"⟩] ⟨"", none, "continue", true⟩
    (Upstream.ok []) rfl (by decide)

/-! ## C6 -/

/-- C6 (amended): a `chat` submission does not allocate a task or return a
task id — the `/chat` response itself is the stream of generated increments,
and the log afterwards holds the saved user message followed by the
placeholder bot row. -/
theorem submit_streams_directly (store : List StoredMsg) (text : String)
    (fi : Option String) (r : Bool) (up : Upstream) :
    chatClaude store ⟨text, fi, "chat", r⟩ up =
      ⟨ChatResponse.stream
          ((stream_claude_sonnet (load_msgs (save_msg store "user" (userSaveText fi text)))
            r false none up).map Prod.fst),
        save_msg (save_msg store "user" (userSaveText fi text)) "bot" savedPlaceholder,
        true⟩ := rfl

/-- C6 counterexample: for a concrete `chat` submission the response already
carries the generated increment `"Hello"` — the generated output is
delivered in the submit response itself, not separately under a task id. -/
theorem submit_returns_output_not_taskid :
    (chatClaude [] ⟨"hi", none, "chat", true⟩ (Upstream.ok ["Hello"])).response
      = ChatResponse.stream ["Hello"] := by decide

/-! ## C7 -/

/-- C7: on clean exhaustion of the stream, the route does **not** persist
the accumulated generated text: it saves the constant placeholder string as
a new bot row — for a `chat` action (where `"Hi" ++ " there"` was generated)
and equally for a `continue` action, where a new bot row is appended instead
of extending the prior assistant message `"answer"`. -/
theorem streaming_persists_placeholder_bug :
    (chatClaude [] ⟨"hello", none, "chat", true⟩ (Upstream.ok ["Hi", " there"])).store
      = [⟨"user", "hello"⟩, ⟨"bot", savedPlaceholder⟩] ∧
    savedPlaceholder ≠ "Hi" ++ " there" ∧
    (chatClaude [⟨"user", "q"⟩, ⟨"bot", "answer"⟩] ⟨"", none, "continue", true⟩
        (Upstream.ok ["more"])).store
      = [⟨"user", "q"⟩, ⟨"bot", "answer"⟩, ⟨"bot", savedPlaceholder⟩] := by
  exact ⟨by decide, by decide, by decide⟩


set_option maxRecDepth 8000 in
/-- C4: with the prior assistant message's fence parity odd, the
continuation prompt is the open-fence template, which names the literal
trailing partial line and forbids re-emitting any part of it, fence markers,
or preamble; with parity even it is the closed-fence template, which embeds
only the trailing window of the last (at most) three lines — a suffix of the
message's line list — and forbids repetition and preamble. -/
theorem continuation_prompt_matches (L : String) :
    (countTriple L % 2 = 1 →
      continueContent L = openContinueContent (lastLineOf L) ∧
      strIncl (continueContent L) (lastLineOf L) ∧
      strIncl (continueContent L) "without repeating any part of" ∧
      strIncl (continueContent L) "``` fences" ∧
      strIncl (continueContent L) "introductory phrases") ∧
    (countTriple L % 2 = 0 →
      continueContent L = closedContinueContent (lastLinesOf L) ∧
      strIncl (continueContent L) (lastLinesOf L) ∧
      strIncl (continueContent L) "without repetition" ∧
      ∃ pre tl, splitNl L = pre ++ tl ∧ tl.length ≤ 3 ∧ lastLinesOf L = joinNl tl) := by
  constructor
  · intro h
    have heq : continueContent L = openContinueContent (lastLineOf L) := by
      simp [continueContent, h]
    rw [heq]
    refine ⟨rfl, ?_, ?_, ?_, ?_⟩
    · refine ⟨("Please continue the code precisely from the last character of the incomplete line: '" : String).data,
        ("'.\nStart your response with the exact characters needed to complete the line, without repeating any part of '" : String).data
          ++ (lastLineOf L).data
          ++ ("', and without adding any extra spaces, newlines, ``` fences, or introductory phrases. For example, if the last line was 'parent_i', start with 'd' to complete 'parent_id' seamlessly." : String).data, ?_⟩
      unfold openContinueContent
      simp [String.data_append, List.append_assoc]
    · have hBs : ("'.\nStart your response with the exact characters needed to complete the line, without repeating any part of '" : String)
          = ("'.\nStart your response with the exact characters needed to complete the line, " : String)
            ++ "without repeating any part of" ++ " '" := by decide
      refine ⟨("Please continue the code precisely from the last character of the incomplete line: '" : String).data
          ++ (lastLineOf L).data
          ++ ("'.\nStart your response with the exact characters needed to complete the line, " : String).data,
        (" '" : String).data ++ (lastLineOf L).data
          ++ ("', and without adding any extra spaces, newlines, ``` fences, or introductory phrases. For example, if the last line was 'parent_i', start with 'd' to complete 'parent_id' seamlessly." : String).data, ?_⟩
      unfold openContinueContent
      rw [hBs]
      simp [String.data_append, List.append_assoc]
    · have hCs : ("', and without adding any extra spaces, newlines, ``` fences, or introductory phrases. For example, if the last line was 'parent_i', start with 'd' to complete 'parent_id' seamlessly." : String)
          = ("', and without adding any extra spaces, newlines, " : String)
            ++ "``` fences"
            ++ ", or introductory phrases. For example, if the last line was 'parent_i', start with 'd' to complete 'parent_id' seamlessly." := by decide
      refine ⟨("Please continue the code precisely from the last character of the incomplete line: '" : String).data
          ++ (lastLineOf L).data
          ++ ("'.\nStart your response with the exact characters needed to complete the line, without repeating any part of '" : String).data
          ++ (lastLineOf L).data
          ++ ("', and without adding any extra spaces, newlines, " : String).data,
        (", or introductory phrases. For example, if the last line was 'parent_i', start with 'd' to complete 'parent_id' seamlessly." : String).data, ?_⟩
      unfold openContinueContent
      rw [hCs]
      simp [String.data_append, List.append_assoc]
    · have hCs : ("', and without adding any extra spaces, newlines, ``` fences, or introductory phrases. For example, if the last line was 'parent_i', start with 'd' to complete 'parent_id' seamlessly." : String)
          = ("', and without adding any extra spaces, newlines, ``` fences, or " : String)
            ++ "introductory phrases"
            ++ ". For example, if the last line was 'parent_i', start with 'd' to complete 'parent_id' seamlessly." := by decide
      refine ⟨("Please continue the code precisely from the last character of the incomplete line: '" : String).data
          ++ (lastLineOf L).data
          ++ ("'.\nStart your response with the exact characters needed to complete the line, without repeating any part of '" : String).data
          ++ (lastLineOf L).data
          ++ ("', and without adding any extra spaces, newlines, ``` fences, or " : String).data,
        (". For example, if the last line was 'parent_i', start with 'd' to complete 'parent_id' seamlessly." : String).data, ?_⟩
      unfold openContinueContent
      rw [hCs]
      simp [String.data_append, List.append_assoc]
  · intro h
    have heq : continueContent L = closedContinueContent (lastLinesOf L) := by
      simp [continueContent, h]
    rw [heq]
    refine ⟨rfl, ?_, ?_, ?_⟩
    · refine ⟨("Please continue the response precisely from where you left off. The last part was:\n" : String).data,
        ("\nStart with the next sentence or content without repetition, extra spaces, newlines, or introductory phrases." : String).data, ?_⟩
      unfold closedContinueContent
      simp [String.data_append, List.append_assoc]
    · have hEs : ("\nStart with the next sentence or content without repetition, extra spaces, newlines, or introductory phrases." : String)
          = ("\nStart with the next sentence or content " : String)
            ++ "without repetition"
            ++ ", extra spaces, newlines, or introductory phrases." := by decide
      refine ⟨("Please continue the response precisely from where you left off. The last part was:\n" : String).data
          ++ (lastLinesOf L).data
          ++ ("\nStart with the next sentence or content " : String).data,
        (", extra spaces, newlines, or introductory phrases." : String).data, ?_⟩
      unfold closedContinueContent
      rw [hEs]
      simp [String.data_append, List.append_assoc]
    · refine ⟨(splitNl L).take ((splitNl L).length - 3),
        (splitNl L).drop ((splitNl L).length - 3),
        (List.take_append_drop _ _).symm, ?_, rfl⟩
      rw [List.length_drop]
      omega

/-- C4 witness: the prior assistant message `"```x\nparent_i"` has odd fence
parity, so the open-fence template is produced with all its naming and
prohibition phrases. -/
theorem continuation_prompt_matches_witness :
    continueContent "```x\nparent_i" = openContinueContent (lastLineOf "```x\nparent_i") ∧
    strIncl (continueContent "```x\nparent_i") (lastLineOf "```x\nparent_i") ∧
    strIncl (continueContent "```x\nparent_i") "without repeating any part of" ∧
    strIncl (continueContent "```x\nparent_i") "``` fences" ∧
    strIncl (continueContent "```x\nparent_i") "introductory phrases" :=
  (continuation_prompt_matches "```x\nparent_i").1 (by decide)
